import Mathlib

/-!
# Host Bandwidth Manager (HBM) helpers: `samples/bpf/hbm_kern.h`

A shallow embedding of the helper functions of the HBM sample BPF programs
(`get_tcp_info`, `hbm_get_pkt_info`, `hbm_init_vqueue`, `hbm_update_stats`
and the `CREDIT_PER_NS` macro), followed by theorems about them.

Conventions of the embedding.

* C machine integers are `Nat` (unsigned) or `Int` (signed) values, and every
  C conversion or wrapping operation is written out with an explicit modulus
  (`toU64`, `toU32`, `toS32`, `toS64`).
* A C pointer that the code tests against `NULL` is an `Option`.
* `__sync_add_and_fetch(&x, v)` on a 64-bit field is the sequential
  read-modify-write `x := (x + v) mod 2^64`; the operand `v` is converted to
  the field's type first, as C does.
-/

namespace HBM

/-! ## Machine integers -/

/-- Conversion of an integer value to `unsigned long long` / `u64`. -/
def toU64 (x : Int) : Nat := (x % 2 ^ 64).toNat

/-- Conversion of an integer value to `unsigned int` / `u32`. -/
def toU32 (x : Int) : Nat := (x % 2 ^ 32).toNat

/-- Conversion of an integer value to a 32-bit `int` (two's complement): the
value modulo `2^32`, read as negative from `2^31` on. -/
def toS32 (x : Int) : Int :=
  if toU32 x < 2 ^ 31 then (toU32 x : Int) else (toU32 x : Int) - 2 ^ 32

/-- Conversion of an integer value to a 64-bit `long long` (two's
complement): the value modulo `2^64`, read as negative from `2^63` on. -/
def toS64 (x : Int) : Int :=
  if toU64 x < 2 ^ 63 then (toU64 x : Int) else (toU64 x : Int) - 2 ^ 64

/-- The effect of `__sync_add_and_fetch(&x, v)` on an `unsigned long long`
field holding `x`, for an operand of integer value `v`. -/
def add64 (x : Nat) (v : Int) : Nat := toU64 ((x : Int) + v)

/-! ## Constants (lines 29-46) -/

def DROP_PKT : Nat := 0
def ALLOW_PKT : Nat := 1

def INITIAL_CREDIT_PACKETS : Int := 100
def MAX_BYTES_PER_PACKET : Int := 1500
def MARK_THRESH : Int := 40 * MAX_BYTES_PER_PACKET
def DROP_THRESH : Int := 80 * 5 * MAX_BYTES_PER_PACKET
def LARGE_PKT_DROP_THRESH : Int := DROP_THRESH - (15 * MAX_BYTES_PER_PACKET)
def MARK_REGION_SIZE : Int := LARGE_PKT_DROP_THRESH - MARK_THRESH
def LARGE_PKT_THRESH : Int := 120
def MAX_CREDIT : Int := 100 * MAX_BYTES_PER_PACKET
def INIT_CREDIT : Int := INITIAL_CREDIT_PACKETS * MAX_BYTES_PER_PACKET

/-- The mask `INET_ECN_MASK` of `net/inet_ecn.h` (the two ECN bits). -/
def INET_ECN_MASK : Nat := 3

/-- The transport protocol number `IPPROTO_TCP` of `uapi/linux/in.h`. -/
def IPPROTO_TCP : Nat := 6

/-- The macro `CREDIT_PER_NS(delta, rate)`:
`((((u64)(delta)) * (rate)) >> 20)`. Both operands are given by their integer
values; the product is taken in `u64`, to which `rate` is converted by the
usual arithmetic conversions. -/
def CREDIT_PER_NS (delta rate : Int) : Nat :=
  ((toU64 delta * toU64 rate) % 2 ^ 64) >>> 20

/-! ## Packet information (lines 67-122) -/

/-- The record `struct hbm_pkt_info`. -/
structure hbm_pkt_info where
  cwnd : Int
  rtt : Int
  is_ip : Bool
  is_tcp : Bool
  ecn : Int
  deriving DecidableEq, Repr

/-- Modelled from the spec: the `struct bpf_tcp_sock` of `uapi/linux/bpf.h`
(absent from the sources), reduced to the two unsigned 32-bit fields that are
read, the congestion window and the smoothed round-trip time. -/
structure bpf_tcp_sock where
  snd_cwnd : Nat
  srtt_us : Nat
  deriving DecidableEq, Repr

/-- Modelled from the spec: a full socket as `bpf_sk_fullsock` returns it
(`struct bpf_sock` of `uapi/linux/bpf.h`, absent from the sources): its
`protocol` field and the result of the helper `bpf_tcp_sock` on it, a fallible
accessor that yields no object when there is no TCP socket. -/
structure bpf_fullsock where
  protocol : Nat
  tcp_sock : Option bpf_tcp_sock
  deriving DecidableEq, Repr

/-- Modelled from the spec: the socket `skb->sk` points to (`struct bpf_sock`,
absent from the sources), carrying the result of the helper `bpf_sk_fullsock`
on it, a fallible accessor that yields no object when it is not a full
socket. -/
structure bpf_sock where
  fullsock : Option bpf_fullsock
  deriving DecidableEq, Repr

/-- Modelled from the spec: the packet `struct __sk_buff` (absent from the
sources), reduced to what the helpers read: the packet bytes and the pointer
`sk` to the owning socket, which may be `NULL`. -/
structure sk_buff where
  data : List (Fin 256)
  sk : Option bpf_sock
  deriving DecidableEq, Repr

/-- The helper `bpf_sk_fullsock`. -/
def bpf_sk_fullsock (sk : bpf_sock) : Option bpf_fullsock := sk.fullsock

/-- The helper `bpf_tcp_sock`. -/
def bpf_tcp_sock_of (sk : bpf_fullsock) : Option bpf_tcp_sock := sk.tcp_sock

/-- Modelled from the spec: the helper `bpf_skb_load_bytes(skb, offset, to, len)`
(absent from the sources), the fallible primitive reading `len` bytes of the
packet. It yields the bytes `offset .. offset+len-1` of the packet; when the
packet is too short the read fails and the destination buffer is zeroed. -/
def bpf_skb_load_bytes (skb : sk_buff) (offset len : Nat) : List Nat :=
  if offset + len ≤ skb.data.length then
    ((skb.data.drop offset).take len).map (fun b => b.val)
  else List.replicate len 0

/-- The function `get_tcp_info` (lines 75-95): the returned integer and the
record `*pkti` after the call. -/
def get_tcp_info (skb : sk_buff) (pkti : hbm_pkt_info) : Int × hbm_pkt_info :=
  match skb.sk with
  | some sk =>
    match bpf_sk_fullsock sk with
    | some sk =>
      if sk.protocol = IPPROTO_TCP then
        match bpf_tcp_sock_of sk with
        | some tp =>
          (0, { pkti with cwnd := toS32 tp.snd_cwnd, rtt := toS32 (tp.srtt_us >>> 3) })
        | none => (1, pkti)
      else (1, pkti)
    | none => (1, pkti)
  | none => (1, pkti)

/-- The bit-field `iph.version`: the high nibble of header byte 0. -/
def iph_version (iph : List Nat) : Nat := iph.getD 0 0 >>> 4

/-- The field `iph.tos`: header byte 1. -/
def iph_tos (iph : List Nat) : Nat := iph.getD 1 0

/-- The field `iph.protocol`: header byte 9. -/
def iph_protocol (iph : List Nat) : Nat := iph.getD 9 0

/-- The field `ip6h->flow_lbl[0]`: header byte 1. -/
def ip6h_flow_lbl0 (iph : List Nat) : Nat := iph.getD 1 0

/-- The field `ip6h->nexthdr`: header byte 6. -/
def ip6h_nexthdr (iph : List Nat) : Nat := iph.getD 6 0

/-- Lines 103-119 of `hbm_get_pkt_info`: the record `*pkti` when control
reaches the test `if (pkti->is_tcp)`. -/
def hbm_get_pkt_info_hdr (skb : sk_buff) : hbm_pkt_info :=
  let iph := bpf_skb_load_bytes skb 0 12
  if iph_version iph = 6 then
    { cwnd := 0, rtt := 0, is_ip := true,
      is_tcp := decide (ip6h_nexthdr iph = 6),
      ecn := (((ip6h_flow_lbl0 iph >>> 4) &&& INET_ECN_MASK : Nat) : Int) }
  else if iph_version iph = 4 then
    { cwnd := 0, rtt := 0, is_ip := true,
      is_tcp := decide (iph_protocol iph = 6),
      ecn := ((iph_tos iph &&& INET_ECN_MASK : Nat) : Int) }
  else
    { cwnd := 0, rtt := 0, is_ip := false, is_tcp := false, ecn := 0 }

/-- The function `hbm_get_pkt_info` (lines 97-122): the record `*pkti` after
the call. The value `get_tcp_info` returns is discarded, as in the source. -/
def hbm_get_pkt_info (skb : sk_buff) : hbm_pkt_info :=
  let pkti := hbm_get_pkt_info_hdr skb
  if pkti.is_tcp then (get_tcp_info skb pkti).2 else pkti

/-! ## Virtual queue (lines 124-130) -/

/-- Modelled from the spec: the record `struct hbm_vqueue` of `hbm.h` (absent
from the sources): the time of the last update in ns (`unsigned long long`),
the credit in bytes (`int`) and the rate in bytes per ns, scaled by `2^20`
(`unsigned int`). -/
structure hbm_vqueue where
  lasttime : Nat
  credit : Int
  rate : Nat
  deriving DecidableEq, Repr

/-- The function `hbm_init_vqueue` (lines 124-130). The reading of the clock,
`bpf_ktime_get_ns()`, is the parameter `now`, an `unsigned long long` value;
`rate` is the value of the `int` argument. The product `rate * 128` is taken
in `int` and stored in the 32-bit field. -/
def hbm_init_vqueue (_qdp : hbm_vqueue) (now : Nat) (rate : Int) : hbm_vqueue :=
  { lasttime := now,
    credit := toS32 INIT_CREDIT,
    rate := toU32 (toS32 (rate * 128)) }

/-! ## Statistics (lines 132-192) -/

/-- Modelled from the spec: the record `struct hbm_queue_stats` of `hbm.h`
(absent from the sources): the one-bit flag `stats`, the `unsigned long long`
counters and sums, the four-slot array `returnValCount` and the `long long`
sum `sum_credit`. -/
structure hbm_queue_stats where
  stats : Bool
  pkts_marked : Nat
  bytes_marked : Nat
  pkts_dropped : Nat
  bytes_dropped : Nat
  pkts_total : Nat
  bytes_total : Nat
  firstPacketTime : Nat
  lastPacketTime : Nat
  pkts_ecn_ce : Nat
  returnValCount : Fin 4 → Nat
  sum_cwnd : Nat
  sum_rtt : Nat
  sum_cwnd_cnt : Nat
  sum_credit : Int

/-- The body of `hbm_update_stats` below the test `qsp != NULL` (lines
145-190), on the record `*qsp`. -/
def hbm_update_stats_rec (q : hbm_queue_stats) (len : Int) (curtime : Nat)
    (congestion_flag drop_flag cwr_flag ecn_ce_flag : Bool)
    (pkti : hbm_pkt_info) (credit : Int) : hbm_queue_stats :=
  let q := { q with bytes_total := add64 q.bytes_total len }
  if q.stats then
    let q := if q.firstPacketTime = 0 then { q with firstPacketTime := curtime } else q
    let q := { q with lastPacketTime := curtime }
    let q := { q with pkts_total := add64 q.pkts_total 1 }
    let q :=
      if congestion_flag then
        { q with pkts_marked := add64 q.pkts_marked 1,
                 bytes_marked := add64 q.bytes_marked len }
      else q
    let q :=
      if drop_flag then
        { q with pkts_dropped := add64 q.pkts_dropped 1,
                 bytes_dropped := add64 q.bytes_dropped len }
      else q
    let q := if ecn_ce_flag then { q with pkts_ecn_ce := add64 q.pkts_ecn_ce 1 } else q
    let q :=
      if pkti.cwnd ≠ 0 then
        { q with sum_cwnd := add64 q.sum_cwnd pkti.cwnd,
                 sum_cwnd_cnt := add64 q.sum_cwnd_cnt 1 }
      else q
    let q := if pkti.rtt ≠ 0 then { q with sum_rtt := add64 q.sum_rtt pkti.rtt } else q
    let q := { q with sum_credit := toS64 (q.sum_credit + credit) }
    let rv : Nat := ALLOW_PKT
    let rv := if drop_flag then DROP_PKT else rv
    let rv := if cwr_flag then rv ||| 2 else rv
    if rv = DROP_PKT then
      { q with returnValCount := Function.update q.returnValCount 0 (add64 (q.returnValCount 0) 1) }
    else if rv = ALLOW_PKT then
      { q with returnValCount := Function.update q.returnValCount 1 (add64 (q.returnValCount 1) 1) }
    else if rv = 2 then
      { q with returnValCount := Function.update q.returnValCount 2 (add64 (q.returnValCount 2) 1) }
    else if rv = 3 then
      { q with returnValCount := Function.update q.returnValCount 3 (add64 (q.returnValCount 3) 1) }
    else q
  else q

/-- The function `hbm_update_stats` (lines 132-192): the record behind the
pointer `qsp` after the call; `none` is the `NULL` pointer. -/
def hbm_update_stats (qsp : Option hbm_queue_stats) (len : Int) (curtime : Nat)
    (congestion_flag drop_flag cwr_flag ecn_ce_flag : Bool)
    (pkti : hbm_pkt_info) (credit : Int) : Option hbm_queue_stats :=
  match qsp with
  | some q =>
    some (hbm_update_stats_rec q len curtime congestion_flag drop_flag cwr_flag
      ecn_ce_flag pkti credit)
  | none => none

/-- The zero-initialised statistics record, with the flag `stats` as
configured. -/
def hbm_queue_stats_zero (stats : Bool) : hbm_queue_stats :=
  { stats := stats, pkts_marked := 0, bytes_marked := 0, pkts_dropped := 0,
    bytes_dropped := 0, pkts_total := 0, bytes_total := 0, firstPacketTime := 0,
    lastPacketTime := 0, pkts_ecn_ce := 0, returnValCount := fun _ => 0,
    sum_cwnd := 0, sum_rtt := 0, sum_cwnd_cnt := 0, sum_credit := 0 }

/-- The arguments of one call of `hbm_update_stats`, the pointer `qsp` apart. -/
structure stats_call where
  len : Int
  curtime : Nat
  congestion_flag : Bool
  drop_flag : Bool
  cwr_flag : Bool
  ecn_ce_flag : Bool
  pkti : hbm_pkt_info
  credit : Int
  deriving DecidableEq

/-- One call of `hbm_update_stats` per element of `calls`, in the order of the
list, all on the record behind `qsp`. -/
def hbm_update_stats_calls (qsp : Option hbm_queue_stats) (calls : List stats_call) :
    Option hbm_queue_stats :=
  calls.foldl (fun q c => hbm_update_stats q c.len c.curtime c.congestion_flag
    c.drop_flag c.cwr_flag c.ecn_ce_flag c.pkti c.credit) qsp

/-- The predicate `pkts_marked <= pkts_total` and `bytes_marked <= bytes_total`
on a statistics record. -/
def stats_marked_le_total (q : hbm_queue_stats) : Prop :=
  q.pkts_marked ≤ q.pkts_total ∧ q.bytes_marked ≤ q.bytes_total

instance (q : hbm_queue_stats) : Decidable (stats_marked_le_total q) := by
  unfold stats_marked_le_total; infer_instance

/-- Byte `i` of the packet (0 beyond its end). -/
def pkt_byte (skb : sk_buff) (i : Nat) : Nat := (skb.data.getD i 0).val

/-- The flow object of the packet is not readable: `skb->sk` is absent, or it
is not a full socket, or the protocol of the socket is not TCP, or it has no
`tcp_sock`. -/
def flow_unreadable (skb : sk_buff) : Prop :=
  skb.sk = none ∨
  (∃ sk, skb.sk = some sk ∧ bpf_sk_fullsock sk = none) ∨
  (∃ sk fs, skb.sk = some sk ∧ bpf_sk_fullsock sk = some fs ∧
    fs.protocol ≠ IPPROTO_TCP) ∨
  (∃ sk fs, skb.sk = some sk ∧ bpf_sk_fullsock sk = some fs ∧
    bpf_tcp_sock_of fs = none)

/-- Every step of the read succeeds and reaches the TCP socket `tp`: `skb->sk`
is present, it is a full socket, its protocol is TCP and it has the
`tcp_sock` `tp`. -/
def flow_readable (skb : sk_buff) (tp : bpf_tcp_sock) : Prop :=
  ∃ sk fs, skb.sk = some sk ∧ bpf_sk_fullsock sk = some fs ∧
    fs.protocol = IPPROTO_TCP ∧ bpf_tcp_sock_of fs = some tp

/-! ## Arithmetic of the machine integers -/

theorem toU64_lt (x : Int) : toU64 x < 2 ^ 64 := by
  unfold toU64
  have h1 : 0 ≤ x % 2 ^ 64 := Int.emod_nonneg _ (by norm_num)
  have h2 : x % 2 ^ 64 < 2 ^ 64 := Int.emod_lt_of_pos _ (by norm_num)
  omega

theorem toU64_of_range (x : Int) (h0 : 0 ≤ x) (h1 : x < 2 ^ 64) : (toU64 x : Int) = x := by
  unfold toU64
  rw [Int.emod_eq_of_lt h0 h1]
  omega

theorem toU64_cast (x : Int) : ((toU64 x : Nat) : Int) = x % 2 ^ 64 := by
  unfold toU64
  have h1 : 0 ≤ x % 2 ^ 64 := Int.emod_nonneg _ (by norm_num)
  omega

theorem add64_cast (x : Nat) (v : Int) : ((add64 x v : Nat) : Int) = ((x : Int) + v) % 2 ^ 64 :=
  toU64_cast _

theorem add64_add64 (x : Nat) (a b : Int) : add64 (add64 x a) b = add64 x (a + b) := by
  have h : ((add64 (add64 x a) b : Nat) : Int) = ((add64 x (a + b) : Nat) : Int) := by
    rw [add64_cast, add64_cast, add64_cast, Int.emod_add_emod, add_assoc]
  exact_mod_cast h

theorem add64_of_range (x : Nat) (v : Int) (h0 : 0 ≤ (x : Int) + v)
    (h1 : (x : Int) + v < 2 ^ 64) : ((add64 x v : Nat) : Int) = (x : Int) + v :=
  toU64_of_range _ h0 h1

/-! ## Field-by-field effect of `hbm_update_stats_rec` -/

theorem hbm_update_stats_rec_off (q : hbm_queue_stats) (len : Int)
    (curtime : Nat) (congestion_flag drop_flag cwr_flag ecn_ce_flag : Bool)
    (pkti : hbm_pkt_info) (credit : Int) (hs : q.stats = false) :
    hbm_update_stats_rec q len curtime congestion_flag drop_flag cwr_flag ecn_ce_flag
      pkti credit = { q with bytes_total := add64 q.bytes_total len } := by
  simp [hbm_update_stats_rec, hs]

theorem hbm_update_stats_rec_bytes_total (q : hbm_queue_stats) (len : Int)
    (curtime : Nat) (congestion_flag drop_flag cwr_flag ecn_ce_flag : Bool)
    (pkti : hbm_pkt_info) (credit : Int) :
    (hbm_update_stats_rec q len curtime congestion_flag drop_flag cwr_flag ecn_ce_flag
      pkti credit).bytes_total = add64 q.bytes_total len := by
  unfold hbm_update_stats_rec
  cases q.stats <;> cases congestion_flag <;> cases drop_flag <;> cases cwr_flag <;>
    cases ecn_ce_flag <;> simp [DROP_PKT, ALLOW_PKT] <;> split_ifs <;> rfl

theorem hbm_update_stats_rec_stats (q : hbm_queue_stats) (len : Int)
    (curtime : Nat) (congestion_flag drop_flag cwr_flag ecn_ce_flag : Bool)
    (pkti : hbm_pkt_info) (credit : Int) :
    (hbm_update_stats_rec q len curtime congestion_flag drop_flag cwr_flag ecn_ce_flag
      pkti credit).stats = q.stats := by
  unfold hbm_update_stats_rec
  cases hs : q.stats <;> cases congestion_flag <;> cases drop_flag <;> cases cwr_flag <;>
    cases ecn_ce_flag <;> simp [hs, DROP_PKT, ALLOW_PKT] <;> split_ifs <;> simp [hs]

theorem hbm_update_stats_rec_pkts_total (q : hbm_queue_stats) (len : Int)
    (curtime : Nat) (congestion_flag drop_flag cwr_flag ecn_ce_flag : Bool)
    (pkti : hbm_pkt_info) (credit : Int) :
    (hbm_update_stats_rec q len curtime congestion_flag drop_flag cwr_flag ecn_ce_flag
      pkti credit).pkts_total = if q.stats then add64 q.pkts_total 1 else q.pkts_total := by
  unfold hbm_update_stats_rec
  cases hs : q.stats <;> cases congestion_flag <;> cases drop_flag <;> cases cwr_flag <;>
    cases ecn_ce_flag <;> simp [hs, DROP_PKT, ALLOW_PKT] <;> split_ifs <;> rfl

theorem hbm_update_stats_rec_pkts_marked (q : hbm_queue_stats) (len : Int)
    (curtime : Nat) (congestion_flag drop_flag cwr_flag ecn_ce_flag : Bool)
    (pkti : hbm_pkt_info) (credit : Int) :
    (hbm_update_stats_rec q len curtime congestion_flag drop_flag cwr_flag ecn_ce_flag
      pkti credit).pkts_marked =
      if q.stats && congestion_flag then add64 q.pkts_marked 1 else q.pkts_marked := by
  unfold hbm_update_stats_rec
  cases hs : q.stats <;> cases congestion_flag <;> cases drop_flag <;> cases cwr_flag <;>
    cases ecn_ce_flag <;> simp [hs, DROP_PKT, ALLOW_PKT] <;> split_ifs <;> rfl

theorem hbm_update_stats_rec_bytes_marked (q : hbm_queue_stats) (len : Int)
    (curtime : Nat) (congestion_flag drop_flag cwr_flag ecn_ce_flag : Bool)
    (pkti : hbm_pkt_info) (credit : Int) :
    (hbm_update_stats_rec q len curtime congestion_flag drop_flag cwr_flag ecn_ce_flag
      pkti credit).bytes_marked =
      if q.stats && congestion_flag then add64 q.bytes_marked len else q.bytes_marked := by
  unfold hbm_update_stats_rec
  cases hs : q.stats <;> cases congestion_flag <;> cases drop_flag <;> cases cwr_flag <;>
    cases ecn_ce_flag <;> simp [hs, DROP_PKT, ALLOW_PKT] <;> split_ifs <;> rfl

theorem hbm_update_stats_rec_returnValCount (q : hbm_queue_stats) (len : Int)
    (curtime : Nat) (congestion_flag drop_flag cwr_flag ecn_ce_flag : Bool)
    (pkti : hbm_pkt_info) (credit : Int) (hs : q.stats = true) :
    (hbm_update_stats_rec q len curtime congestion_flag drop_flag cwr_flag ecn_ce_flag
      pkti credit).returnValCount =
      match drop_flag, cwr_flag with
      | true, false => Function.update q.returnValCount 0 (add64 (q.returnValCount 0) 1)
      | false, false => Function.update q.returnValCount 1 (add64 (q.returnValCount 1) 1)
      | true, true => Function.update q.returnValCount 2 (add64 (q.returnValCount 2) 1)
      | false, true => Function.update q.returnValCount 3 (add64 (q.returnValCount 3) 1) := by
  unfold hbm_update_stats_rec
  cases congestion_flag <;> cases drop_flag <;> cases cwr_flag <;>
    cases ecn_ce_flag <;> simp [hs, DROP_PKT, ALLOW_PKT] <;> split_ifs <;> rfl

/-! ## Statistics: the work-conserving byte counter and the frame (C1) -/

/-- C1. For a non-null record `q`, a call of `hbm_update_stats` leaves a record
whose `bytes_total` is the old one increased by `len` (an `unsigned long long`
addition: modulo `2^64`, and the exact sum whenever that sum is in range),
whether `q.stats` is set or not; the flag `stats` is never written; and when
`q.stats` is 0 every other field is the old one, whatever the flags, `pkti`
and `credit`. -/
theorem hbm_update_stats_bytes_total_frame (q : hbm_queue_stats) (len : Int)
    (curtime : Nat) (congestion_flag drop_flag cwr_flag ecn_ce_flag : Bool)
    (pkti : hbm_pkt_info) (credit : Int) :
    ∃ q', hbm_update_stats (some q) len curtime congestion_flag drop_flag cwr_flag
            ecn_ce_flag pkti credit = some q' ∧
      q'.bytes_total = add64 q.bytes_total len ∧
      (0 ≤ (q.bytes_total : Int) + len → (q.bytes_total : Int) + len < 2 ^ 64 →
        (q'.bytes_total : Int) = (q.bytes_total : Int) + len) ∧
      q'.stats = q.stats ∧
      (q.stats = false →
        q'.pkts_total = q.pkts_total ∧ q'.pkts_marked = q.pkts_marked ∧
        q'.bytes_marked = q.bytes_marked ∧ q'.pkts_dropped = q.pkts_dropped ∧
        q'.bytes_dropped = q.bytes_dropped ∧ q'.pkts_ecn_ce = q.pkts_ecn_ce ∧
        q'.sum_cwnd = q.sum_cwnd ∧ q'.sum_cwnd_cnt = q.sum_cwnd_cnt ∧
        q'.sum_rtt = q.sum_rtt ∧ q'.sum_credit = q.sum_credit ∧
        q'.returnValCount = q.returnValCount ∧
        q'.firstPacketTime = q.firstPacketTime ∧
        q'.lastPacketTime = q.lastPacketTime) := by
  refine ⟨_, rfl, hbm_update_stats_rec_bytes_total .., ?_,
    hbm_update_stats_rec_stats .., ?_⟩
  · intro h0 h1
    rw [hbm_update_stats_rec_bytes_total]
    exact add64_of_range _ _ h0 h1
  · intro hs
    rw [hbm_update_stats_rec_off _ _ _ _ _ _ _ _ _ hs]
    simp

/-- C1, at a concrete input: statistics disabled, a marked and dropped packet
of 1500 bytes with a non-zero congestion window and round-trip time. -/
theorem hbm_update_stats_bytes_total_frame_witness :
    ∃ q', hbm_update_stats
        (some { hbm_queue_stats_zero false with bytes_total := 7, pkts_total := 3 })
        1500 42 true true true true ⟨10, 20, true, true, 1⟩ (-5) = some q' ∧
      q'.bytes_total = 1507 ∧ q'.pkts_total = 3 ∧ q'.pkts_marked = 0 ∧
      q'.returnValCount = (fun _ => 0) ∧ q'.lastPacketTime = 0 := by
  obtain ⟨q', h, hb, _, _, hf⟩ := hbm_update_stats_bytes_total_frame
    { hbm_queue_stats_zero false with bytes_total := 7, pkts_total := 3 }
    1500 42 true true true true ⟨10, 20, true, true, 1⟩ (-5)
  obtain ⟨h1, h2, _, _, _, _, _, _, _, _, h3, _, h4⟩ := hf rfl
  exact ⟨q', h, by rw [hb]; decide, h1, h2, h3, h4⟩

/-! ## Statistics: the histogram of decisions (C2) -/

/-- C2, refuted as stated. With statistics enabled, a marked packet that is
neither dropped nor asked to reduce its window (`congestion_flag` set,
`drop_flag` and `cwr_flag` clear) increments slot 1 and leaves slot 2 at zero;
and a dropped packet with `cwr_flag` set increments slot 2 and leaves slot 0
at zero. -/
theorem hbm_update_stats_histogram_counterexample :
    ((hbm_update_stats_rec (hbm_queue_stats_zero true) 1500 42
        true false false false ⟨0, 0, true, true, 1⟩ 0).returnValCount 1 = 1 ∧
      (hbm_update_stats_rec (hbm_queue_stats_zero true) 1500 42
        true false false false ⟨0, 0, true, true, 1⟩ 0).returnValCount 2 = 0) ∧
    ((hbm_update_stats_rec (hbm_queue_stats_zero true) 1500 42
        false true true false ⟨0, 0, true, true, 0⟩ 0).returnValCount 2 = 1 ∧
      (hbm_update_stats_rec (hbm_queue_stats_zero true) 1500 42
        false true true false ⟨0, 0, true, true, 0⟩ 0).returnValCount 0 = 0) := by
  decide

/-- C2, amended. With statistics enabled, each call increments (modulo `2^64`)
exactly one slot of `returnValCount` and leaves the other three unchanged; the
slot is the value `rv` built from `drop_flag` and `cwr_flag` alone (bit 0 set
when the packet is not dropped, bit 1 set when `cwr_flag` is set), whatever
`congestion_flag` is: slot 0 for dropped without `cwr_flag`, slot 1 for not
dropped without `cwr_flag`, slot 2 for dropped with `cwr_flag`, slot 3 for not
dropped with `cwr_flag`. -/
theorem hbm_update_stats_histogram (q : hbm_queue_stats) (len : Int)
    (curtime : Nat) (congestion_flag drop_flag cwr_flag ecn_ce_flag : Bool)
    (pkti : hbm_pkt_info) (credit : Int) (hs : q.stats = true) :
    ∃ i : Fin 4,
      i.val = ((if drop_flag then 0 else 1) ||| (if cwr_flag then 2 else 0)) ∧
      (hbm_update_stats_rec q len curtime congestion_flag drop_flag cwr_flag
        ecn_ce_flag pkti credit).returnValCount i = add64 (q.returnValCount i) 1 ∧
      (∀ j : Fin 4, j ≠ i →
        (hbm_update_stats_rec q len curtime congestion_flag drop_flag cwr_flag
          ecn_ce_flag pkti credit).returnValCount j = q.returnValCount j) ∧
      (drop_flag = true → cwr_flag = false → i = 0) ∧
      (drop_flag = false → cwr_flag = false → i = 1) ∧
      (drop_flag = true → cwr_flag = true → i = 2) ∧
      (drop_flag = false → cwr_flag = true → i = 3) := by
  rw [hbm_update_stats_rec_returnValCount _ _ _ _ _ _ _ _ _ hs]
  cases drop_flag <;> cases cwr_flag
  · exact ⟨1, by decide, by simp, fun j hj => by simp [Function.update, hj], by simp⟩
  · exact ⟨3, by decide, by simp, fun j hj => by simp [Function.update, hj], by simp⟩
  · exact ⟨0, by decide, by simp, fun j hj => by simp [Function.update, hj], by simp⟩
  · exact ⟨2, by decide, by simp, fun j hj => by simp [Function.update, hj], by simp⟩

/-- C2 amended, at a concrete input: a marked packet that is not dropped and
has `cwr_flag` clear is counted in slot 1. -/
theorem hbm_update_stats_histogram_witness :
    ∃ i : Fin 4, i = 1 ∧
      (hbm_update_stats_rec (hbm_queue_stats_zero true) 1500 42
        true false false false ⟨0, 0, true, true, 1⟩ 0).returnValCount i = 1 := by
  obtain ⟨i, _, h1, _, _, h2, _, _⟩ := hbm_update_stats_histogram
    (hbm_queue_stats_zero true) 1500 42 true false false false ⟨0, 0, true, true, 1⟩ 0 rfl
  have hi : i = 1 := h2 rfl rfl
  subst hi
  exact ⟨1, rfl, by rw [h1]; decide⟩

/-! ## Statistics: additivity of the totals (C3) -/

theorem add64_zero (x : Nat) (h : x < 2 ^ 64) : add64 x 0 = x := by
  have h1 := add64_of_range x 0 (by omega) (by omega)
  omega

theorem add64_lt (x : Nat) (v : Int) : add64 x v < 2 ^ 64 := toU64_lt _

theorem hbm_update_stats_calls_totals (calls : List stats_call) :
    ∀ q : hbm_queue_stats, q.stats = true → q.pkts_total < 2 ^ 64 →
      q.bytes_total < 2 ^ 64 →
      ∃ q', hbm_update_stats_calls (some q) calls = some q' ∧ q'.stats = true ∧
        q'.pkts_total = add64 q.pkts_total calls.length ∧
        q'.bytes_total = add64 q.bytes_total (calls.map stats_call.len).sum := by
  induction calls with
  | nil =>
    intro q hs h1 h2
    exact ⟨q, rfl, hs, (add64_zero _ h1).symm, (add64_zero _ h2).symm⟩
  | cons c cs ih =>
    intro q hs _ _
    obtain ⟨q', h, hs', hp, hb⟩ := ih (hbm_update_stats_rec q c.len c.curtime
      c.congestion_flag c.drop_flag c.cwr_flag c.ecn_ce_flag c.pkti c.credit)
      (by rw [hbm_update_stats_rec_stats]; exact hs)
      (by rw [hbm_update_stats_rec_pkts_total, if_pos hs]; exact add64_lt _ _)
      (by rw [hbm_update_stats_rec_bytes_total]; exact add64_lt _ _)
    refine ⟨q', ?_, hs', ?_, ?_⟩
    · simpa [hbm_update_stats_calls, hbm_update_stats] using h
    · rw [hp, hbm_update_stats_rec_pkts_total, if_pos hs, add64_add64]
      congr 1
      simp [add_comm]
    · rw [hb, hbm_update_stats_rec_bytes_total, add64_add64]
      simp

/-- C3. For every list `calls` of N calls with non-negative lengths and every
ordering `calls1` of it, applying `hbm_update_stats` once per call, in the
order of `calls1`, to the zero-initialised record with statistics enabled
yields `pkts_total = N` and `bytes_total =` the sum of the lengths, whatever
the flags, `pkti` and `credit` of each call, when neither N nor the sum
reaches `2^64`. -/
theorem hbm_update_stats_calls_additive (calls calls1 : List stats_call)
    (hperm : calls.Perm calls1)
    (hlen : ∀ c ∈ calls, 0 ≤ c.len)
    (hN : calls.length < 2 ^ 64)
    (hsum : (calls.map stats_call.len).sum < 2 ^ 64) :
    ∃ q', hbm_update_stats_calls (some (hbm_queue_stats_zero true)) calls1 = some q' ∧
      q'.pkts_total = calls.length ∧
      (q'.bytes_total : Int) = (calls.map stats_call.len).sum := by
  obtain ⟨q', h, _, hp, hb⟩ := hbm_update_stats_calls_totals calls1
    (hbm_queue_stats_zero true) rfl (by simp [hbm_queue_stats_zero])
    (by simp [hbm_queue_stats_zero])
  have hl : calls1.length = calls.length := hperm.length_eq.symm
  have hs : (calls1.map stats_call.len).sum = (calls.map stats_call.len).sum :=
    ((hperm.map stats_call.len).sum_eq).symm
  have h0 : 0 ≤ (calls.map stats_call.len).sum := by
    apply List.sum_nonneg
    intro x hx
    obtain ⟨c, hc, rfl⟩ := List.mem_map.mp hx
    exact hlen c hc
  refine ⟨q', h, ?_, ?_⟩
  · rw [hp, hl]
    have := add64_of_range (hbm_queue_stats_zero true).pkts_total calls.length
      (by simp [hbm_queue_stats_zero]) (by simp [hbm_queue_stats_zero]; exact_mod_cast hN)
    simp only [hbm_queue_stats_zero] at this ⊢
    omega
  · rw [hb, hs]
    have := add64_of_range (hbm_queue_stats_zero true).bytes_total
      (calls.map stats_call.len).sum
      (by simp [hbm_queue_stats_zero]; exact h0) (by simp [hbm_queue_stats_zero]; exact hsum)
    simp only [hbm_queue_stats_zero] at this ⊢
    simpa using this

/-- C3, at a concrete input: three packets of 1500, 40 and 0 bytes (an
allowed one, a marked one, a dropped one), recorded in the order third, first,
second. -/
theorem hbm_update_stats_calls_additive_witness :
    ∃ q', hbm_update_stats_calls (some (hbm_queue_stats_zero true))
        [⟨0, 30, false, true, false, false, ⟨0, 0, false, false, 0⟩, -7⟩,
         ⟨1500, 10, false, false, false, false, ⟨10, 80, true, true, 0⟩, 150000⟩,
         ⟨40, 20, true, false, true, true, ⟨0, 0, true, false, 3⟩, 9⟩] = some q' ∧
      q'.pkts_total = 3 ∧ (q'.bytes_total : Int) = 1540 :=
  hbm_update_stats_calls_additive
    [⟨1500, 10, false, false, false, false, ⟨10, 80, true, true, 0⟩, 150000⟩,
     ⟨40, 20, true, false, true, true, ⟨0, 0, true, false, 3⟩, 9⟩,
     ⟨0, 30, false, true, false, false, ⟨0, 0, false, false, 0⟩, -7⟩]
    [⟨0, 30, false, true, false, false, ⟨0, 0, false, false, 0⟩, -7⟩,
     ⟨1500, 10, false, false, false, false, ⟨10, 80, true, true, 0⟩, 150000⟩,
     ⟨40, 20, true, false, true, true, ⟨0, 0, true, false, 3⟩, 9⟩]
    (by decide) (by decide) (by decide) (by decide)

/-! ## Statistics: marked never exceeds total (C4) -/

/-- C4. The predicate `pkts_marked <= pkts_total` and
`bytes_marked <= bytes_total` holds for the zero-initialised record, and a
call of `hbm_update_stats` with `len >= 0` on a record that satisfies it
leaves a record that satisfies it, for all flags and with `stats` set or not,
when the additions to `bytes_total` and `pkts_total` do not reach `2^64`. -/
theorem hbm_update_stats_marked_le_total (q : hbm_queue_stats) (len : Int)
    (curtime : Nat) (congestion_flag drop_flag cwr_flag ecn_ce_flag : Bool)
    (pkti : hbm_pkt_info) (credit : Int)
    (hlen : 0 ≤ len)
    (hinv : stats_marked_le_total q)
    (hbytes : (q.bytes_total : Int) + len < 2 ^ 64)
    (hpkts : q.pkts_total + 1 < 2 ^ 64) :
    (∀ stats, stats_marked_le_total (hbm_queue_stats_zero stats)) ∧
    ∃ q', hbm_update_stats (some q) len curtime congestion_flag drop_flag cwr_flag
            ecn_ce_flag pkti credit = some q' ∧ stats_marked_le_total q' := by
  obtain ⟨hp, hb⟩ := hinv
  refine ⟨fun s => by simp [stats_marked_le_total, hbm_queue_stats_zero], _, rfl, ?_, ?_⟩
  · rw [hbm_update_stats_rec_pkts_marked, hbm_update_stats_rec_pkts_total]
    have h1 := add64_of_range q.pkts_total 1 (by omega) (by omega)
    have h2 := add64_of_range q.pkts_marked 1 (by omega) (by omega)
    cases q.stats <;> cases congestion_flag <;> simp <;> omega
  · rw [hbm_update_stats_rec_bytes_marked, hbm_update_stats_rec_bytes_total]
    have h1 := add64_of_range q.bytes_total len (by omega) (by omega)
    have h2 := add64_of_range q.bytes_marked len (by omega) (by omega)
    cases q.stats <;> cases congestion_flag <;> simp <;> omega

/-- C4, at a concrete input: a marked packet of 1500 bytes recorded with
statistics enabled on a record with 2 of 5 packets and 80 of 4000 bytes
marked. -/
theorem hbm_update_stats_marked_le_total_witness :
    (∀ stats, stats_marked_le_total (hbm_queue_stats_zero stats)) ∧
    ∃ q', hbm_update_stats
        (some { hbm_queue_stats_zero true with
                  pkts_marked := 2, pkts_total := 5, bytes_marked := 80,
                  bytes_total := 4000 })
        1500 42 true false false false ⟨10, 80, true, true, 1⟩ 0 = some q' ∧
      stats_marked_le_total q' :=
  hbm_update_stats_marked_le_total
    { hbm_queue_stats_zero true with
        pkts_marked := 2, pkts_total := 5, bytes_marked := 80, bytes_total := 4000 }
    1500 42 true false false false ⟨10, 80, true, true, 1⟩ 0
    (by decide) (by decide) (by decide) (by decide)

/-! ## Credit replenishment (C5) -/

/-- C5, refuted as stated. For the elapsed time `delta = -1` and the rate 1,
`CREDIT_PER_NS` is `2^44 - 1`, not zero: the macro converts a negative
`delta` to `u64` and does not clamp it. -/
theorem CREDIT_PER_NS_negative_counterexample :
    (-1 : Int) ≤ 0 ∧ CREDIT_PER_NS (-1) 1 = 17592186044415 ∧
      CREDIT_PER_NS (-1) 1 ≠ 0 := by
  decide

theorem toU64_neg_natCast (d : Nat) (h0 : 0 < d) (h1 : d ≤ 2 ^ 64) :
    toU64 (-(d : Int)) = 2 ^ 64 - d := by
  unfold toU64
  omega

theorem toU64_natCast (r : Nat) (h : r < 2 ^ 64) : toU64 (r : Int) = r := by
  unfold toU64
  omega

/-- C5, amended. A zero elapsed time gives zero replenishment:
`CREDIT_PER_NS(0, rate) = 0` for every rate. A negative elapsed time is not
clamped by the macro: for `delta = -d < 0` and a rate `r > 0` with
`d * r <= 2^64 - 2^20`, the value is `(2^64 - d * r) >> 20`, which is
positive. -/
theorem CREDIT_PER_NS_nonpositive (rate : Int) (d r : Nat)
    (hd : 0 < d) (hr : 0 < r) (hdr : d * r ≤ 2 ^ 64 - 2 ^ 20) :
    CREDIT_PER_NS 0 rate = 0 ∧
    CREDIT_PER_NS (-(d : Int)) (r : Int) = (2 ^ 64 - d * r) >>> 20 ∧
    0 < CREDIT_PER_NS (-(d : Int)) (r : Int) := by
  have hd1 : d ≤ d * r := Nat.le_mul_of_pos_right d hr
  have hr1 : r ≤ d * r := Nat.le_mul_of_pos_left r hd
  have hval : CREDIT_PER_NS (-(d : Int)) (r : Int) = (2 ^ 64 - d * r) >>> 20 := by
    unfold CREDIT_PER_NS
    rw [toU64_neg_natCast d hd (by omega), toU64_natCast r (by omega)]
    congr 1
    have h1 : (2 ^ 64 - d) * r = (2 ^ 64 - d * r) + 2 ^ 64 * (r - 1) := by
      rw [Nat.sub_mul]
      generalize d * r = x at hdr hd1 hr1
      omega
    rw [h1, Nat.add_mul_mod_self_left]
    exact Nat.mod_eq_of_lt (by omega)
  refine ⟨?_, hval, ?_⟩
  · simp [CREDIT_PER_NS, toU64]
  · rw [hval, Nat.shiftRight_eq_div_pow]
    exact Nat.div_pos (by omega) (by norm_num)

/-- C5 amended, at a concrete input: rate 128000, elapsed time -1000 ns. -/
theorem CREDIT_PER_NS_nonpositive_witness :
    CREDIT_PER_NS 0 128000 = 0 ∧
    CREDIT_PER_NS (-1000) 128000 = (2 ^ 64 - 1000 * 128000) >>> 20 ∧
    0 < CREDIT_PER_NS (-1000) 128000 :=
  CREDIT_PER_NS_nonpositive 128000 1000 128000 (by decide) (by decide) (by decide)

/-! ## Initialisation of the virtual queue (C6) -/

theorem toU32_toS32 (x : Int) : toU32 (toS32 x) = toU32 x := by
  unfold toS32
  have h0 : 0 ≤ x % 2 ^ 32 := Int.emod_nonneg _ (by norm_num)
  have h1 : x % 2 ^ 32 < 2 ^ 32 := Int.emod_lt_of_pos _ (by norm_num)
  split_ifs <;> unfold toU32 <;> omega

/-- C6. For every `rate` (and every previous content of the queue state and
every clock reading `now`), `hbm_init_vqueue` leaves
`credit = INIT_CREDIT = 100 * 1500 = 150000`, which is at most `MAX_CREDIT`,
`lasttime = now`, and the field `rate` holding `rate * 128` computed in 32-bit
arithmetic: the value `rate * 128` modulo `2^32`, which is `rate * 128` itself
when that fits the field. -/
theorem hbm_init_vqueue_state (qdp : hbm_vqueue) (now : Nat) (rate : Int) :
    (hbm_init_vqueue qdp now rate).credit = INIT_CREDIT ∧
    INIT_CREDIT = 100 * 1500 ∧ INIT_CREDIT = 150000 ∧
    (hbm_init_vqueue qdp now rate).credit ≤ MAX_CREDIT ∧
    (hbm_init_vqueue qdp now rate).lasttime = now ∧
    ((hbm_init_vqueue qdp now rate).rate : Int) = (rate * 128) % 2 ^ 32 ∧
    (0 ≤ rate → rate * 128 < 2 ^ 32 →
      ((hbm_init_vqueue qdp now rate).rate : Int) = rate * 128) := by
  have hr : ((hbm_init_vqueue qdp now rate).rate : Int) = (rate * 128) % 2 ^ 32 := by
    show ((toU32 (toS32 (rate * 128)) : Nat) : Int) = _
    rw [toU32_toS32]
    unfold toU32
    omega
  have hc : (hbm_init_vqueue qdp now rate).credit = INIT_CREDIT := by
    show toS32 INIT_CREDIT = INIT_CREDIT
    decide
  refine ⟨hc, by decide, by decide, by rw [hc]; decide, rfl, hr, ?_⟩
  intro h0 h1
  rw [hr]
  omega

/-! ## Packet information: the header bytes -/

theorem bpf_skb_load_bytes_getD (skb : sk_buff) (i : Nat) (h12 : 12 ≤ skb.data.length)
    (hi : i < 12) : (bpf_skb_load_bytes skb 0 12).getD i 0 = pkt_byte skb i := by
  unfold bpf_skb_load_bytes pkt_byte
  have hl : i < skb.data.length := by omega
  simp [h12, List.getD, List.getElem?_map, List.getElem?_take, hi, hl]

theorem bpf_skb_load_bytes_short (skb : sk_buff) (h12 : ¬ 12 ≤ skb.data.length) :
    bpf_skb_load_bytes skb 0 12 = List.replicate 12 0 := by
  simp [bpf_skb_load_bytes, h12]

theorem get_tcp_info_frame (skb : sk_buff) (pkti : hbm_pkt_info) :
    (get_tcp_info skb pkti).2.is_ip = pkti.is_ip ∧
    (get_tcp_info skb pkti).2.is_tcp = pkti.is_tcp ∧
    (get_tcp_info skb pkti).2.ecn = pkti.ecn := by
  unfold get_tcp_info
  split
  · split
    · split_ifs
      · split <;> simp
      · simp
    · simp
  · simp

theorem hbm_get_pkt_info_frame (skb : sk_buff) :
    (hbm_get_pkt_info skb).is_ip = (hbm_get_pkt_info_hdr skb).is_ip ∧
    (hbm_get_pkt_info skb).is_tcp = (hbm_get_pkt_info_hdr skb).is_tcp ∧
    (hbm_get_pkt_info skb).ecn = (hbm_get_pkt_info_hdr skb).ecn := by
  unfold hbm_get_pkt_info
  simp only
  split_ifs
  · exact get_tcp_info_frame _ _
  · exact ⟨rfl, rfl, rfl⟩

theorem hbm_get_pkt_info_hdr_sk (skb : sk_buff) (sk1 : Option bpf_sock) :
    hbm_get_pkt_info_hdr { skb with sk := sk1 } = hbm_get_pkt_info_hdr skb := rfl

theorem byte_and_mask (b : Nat) : b &&& 3 = b % 4 :=
  Nat.and_pow_two_sub_one_eq_mod b 2

theorem byte_shift (b : Nat) : b >>> 4 = b / 16 :=
  Nat.shiftRight_eq_div_pow b 4

theorem byte_shift_and_mask (b : Nat) : (b >>> 4) &&& 3 = b / 16 % 4 := by
  rw [byte_and_mask, byte_shift]

theorem iph_version_load (skb : sk_buff) (h12 : 12 ≤ skb.data.length) :
    iph_version (bpf_skb_load_bytes skb 0 12) = pkt_byte skb 0 / 16 := by
  unfold iph_version
  rw [bpf_skb_load_bytes_getD skb 0 h12 (by omega)]
  exact byte_shift _

theorem hbm_get_pkt_info_hdr_v6 (skb : sk_buff) (h12 : 12 ≤ skb.data.length)
    (hv : pkt_byte skb 0 / 16 = 6) :
    hbm_get_pkt_info_hdr skb =
      { cwnd := 0, rtt := 0, is_ip := true, is_tcp := decide (pkt_byte skb 6 = 6),
        ecn := ((pkt_byte skb 1 / 16 % 4 : Nat) : Int) } := by
  unfold hbm_get_pkt_info_hdr
  simp only [iph_version_load skb h12, hv, if_true, ip6h_nexthdr, ip6h_flow_lbl0,
    INET_ECN_MASK, bpf_skb_load_bytes_getD skb 6 h12 (by omega),
    bpf_skb_load_bytes_getD skb 1 h12 (by omega), byte_shift_and_mask]

theorem hbm_get_pkt_info_hdr_v4 (skb : sk_buff) (h12 : 12 ≤ skb.data.length)
    (hv : pkt_byte skb 0 / 16 = 4) :
    hbm_get_pkt_info_hdr skb =
      { cwnd := 0, rtt := 0, is_ip := true, is_tcp := decide (pkt_byte skb 9 = 6),
        ecn := ((pkt_byte skb 1 % 4 : Nat) : Int) } := by
  unfold hbm_get_pkt_info_hdr
  have h46 : ¬ (4 : Nat) = 6 := by decide
  simp only [iph_version_load skb h12, hv, h46, if_true, if_false, iph_protocol, iph_tos,
    INET_ECN_MASK, bpf_skb_load_bytes_getD skb 9 h12 (by omega),
    bpf_skb_load_bytes_getD skb 1 h12 (by omega), byte_and_mask]

theorem hbm_get_pkt_info_hdr_other (skb : sk_buff)
    (h4 : pkt_byte skb 0 / 16 ≠ 4) (h6 : pkt_byte skb 0 / 16 ≠ 6) :
    hbm_get_pkt_info_hdr skb =
      { cwnd := 0, rtt := 0, is_ip := false, is_tcp := false, ecn := 0 } := by
  unfold hbm_get_pkt_info_hdr
  by_cases h12 : 12 ≤ skb.data.length
  · simp only [iph_version_load skb h12, h4, h6, if_false]
  · rw [bpf_skb_load_bytes_short skb h12]
    simp [iph_version]

/-! ## Packet information: IPv6 (C7) -/

/-- C7, refuted as stated. For the IPv6 header starting with the bytes
`0x60 0x10` the ECN codepoint produced is 1, while the low 2 bits of header
byte 1 (`ip6h->flow_lbl[0]`) are 0. -/
theorem hbm_get_pkt_info_v6_counterexample :
    pkt_byte ⟨[0x60, 0x10, 0, 0, 0, 0, 6, 0, 0, 0, 0, 0], none⟩ 0 / 16 = 6 ∧
    (hbm_get_pkt_info ⟨[0x60, 0x10, 0, 0, 0, 0, 6, 0, 0, 0, 0, 0], none⟩).ecn = 1 ∧
    pkt_byte ⟨[0x60, 0x10, 0, 0, 0, 0, 6, 0, 0, 0, 0, 0], none⟩ 1 &&& 3 = 0 ∧
    (hbm_get_pkt_info ⟨[0x60, 0x10, 0, 0, 0, 0, 6, 0, 0, 0, 0, 0], none⟩).ecn ≠
      ((pkt_byte ⟨[0x60, 0x10, 0, 0, 0, 0, 6, 0, 0, 0, 0, 0], none⟩ 1 &&& 3 : Nat) : Int) := by
  decide

/-- C7, amended. For every packet of at least 12 bytes whose version nibble
is 6, `hbm_get_pkt_info` produces `is_ip = true`, `is_tcp = (next-header byte
== 6)` (header byte 6) and `ecn =` bits 4 and 5 of header byte 1, that is
`(ip6h->flow_lbl[0] >> 4) & 3`, the low 2 bits of the traffic class; so
`0 <= ecn <= 3`. -/
theorem hbm_get_pkt_info_v6 (skb : sk_buff) (h12 : 12 ≤ skb.data.length)
    (hv : pkt_byte skb 0 / 16 = 6) :
    (hbm_get_pkt_info skb).is_ip = true ∧
    (hbm_get_pkt_info skb).is_tcp = decide (pkt_byte skb 6 = 6) ∧
    (hbm_get_pkt_info skb).ecn = (((pkt_byte skb 1 >>> 4) &&& 3 : Nat) : Int) ∧
    (hbm_get_pkt_info skb).ecn = ((pkt_byte skb 1 / 16 % 4 : Nat) : Int) ∧
    0 ≤ (hbm_get_pkt_info skb).ecn ∧ (hbm_get_pkt_info skb).ecn ≤ 3 := by
  obtain ⟨h1, h2, h3⟩ := hbm_get_pkt_info_frame skb
  rw [h1, h2, h3, hbm_get_pkt_info_hdr_v6 skb h12 hv]
  refine ⟨rfl, rfl, ?_, rfl, ?_, ?_⟩
  · simp only [pkt_byte, byte_shift_and_mask]
  · simp only; omega
  · simp only; omega

/-- C7 amended, at a concrete input: an IPv6 TCP packet with traffic class
`0x01` (header bytes `0x60 0x10`), without a socket. -/
theorem hbm_get_pkt_info_v6_witness :
    (hbm_get_pkt_info ⟨[0x60, 0x10, 0, 0, 0, 0, 6, 0, 0, 0, 0, 0], none⟩).is_ip = true ∧
    (hbm_get_pkt_info ⟨[0x60, 0x10, 0, 0, 0, 0, 6, 0, 0, 0, 0, 0], none⟩).is_tcp = true ∧
    (hbm_get_pkt_info ⟨[0x60, 0x10, 0, 0, 0, 0, 6, 0, 0, 0, 0, 0], none⟩).ecn = 1 := by
  obtain ⟨h1, h2, h3, _⟩ := hbm_get_pkt_info_v6
    ⟨[0x60, 0x10, 0, 0, 0, 0, 6, 0, 0, 0, 0, 0], none⟩ (by decide) (by decide)
  exact ⟨h1, h2, h3⟩

/-! ## Packet information: IPv4 (C8) -/

/-- C8. For every packet of at least 12 bytes whose version nibble is 4,
`hbm_get_pkt_info` produces `is_ip = true`, `is_tcp = (protocol byte == 6)`
(header byte 9) and `ecn = tos & 3`, the low 2 bits of the ToS byte (header
byte 1); so `0 <= ecn <= 3`. -/
theorem hbm_get_pkt_info_v4 (skb : sk_buff) (h12 : 12 ≤ skb.data.length)
    (hv : pkt_byte skb 0 / 16 = 4) :
    (hbm_get_pkt_info skb).is_ip = true ∧
    (hbm_get_pkt_info skb).is_tcp = decide (pkt_byte skb 9 = 6) ∧
    (hbm_get_pkt_info skb).ecn = ((pkt_byte skb 1 &&& 3 : Nat) : Int) ∧
    (hbm_get_pkt_info skb).ecn = ((pkt_byte skb 1 % 4 : Nat) : Int) ∧
    0 ≤ (hbm_get_pkt_info skb).ecn ∧ (hbm_get_pkt_info skb).ecn ≤ 3 := by
  obtain ⟨h1, h2, h3⟩ := hbm_get_pkt_info_frame skb
  rw [h1, h2, h3, hbm_get_pkt_info_hdr_v4 skb h12 hv]
  refine ⟨rfl, rfl, ?_, rfl, ?_, ?_⟩
  · simp only [pkt_byte, byte_and_mask]
  · simp only; omega
  · simp only; omega

/-- C8, at a concrete input: an IPv4 TCP packet with ToS `0xb9` (ECN
codepoint 1), owned by a readable TCP socket. -/
theorem hbm_get_pkt_info_v4_witness :
    (hbm_get_pkt_info ⟨[0x45, 0xb9, 0, 40, 0, 0, 0, 0, 64, 6, 0, 0, 10, 0, 0, 1],
        some ⟨some ⟨6, some ⟨10, 800⟩⟩⟩⟩).is_ip = true ∧
    (hbm_get_pkt_info ⟨[0x45, 0xb9, 0, 40, 0, 0, 0, 0, 64, 6, 0, 0, 10, 0, 0, 1],
        some ⟨some ⟨6, some ⟨10, 800⟩⟩⟩⟩).is_tcp = true ∧
    (hbm_get_pkt_info ⟨[0x45, 0xb9, 0, 40, 0, 0, 0, 0, 64, 6, 0, 0, 10, 0, 0, 1],
        some ⟨some ⟨6, some ⟨10, 800⟩⟩⟩⟩).ecn = 1 := by
  obtain ⟨h1, h2, h3, _⟩ := hbm_get_pkt_info_v4
    ⟨[0x45, 0xb9, 0, 40, 0, 0, 0, 0, 64, 6, 0, 0, 10, 0, 0, 1],
      some ⟨some ⟨6, some ⟨10, 800⟩⟩⟩⟩ (by decide) (by decide)
  exact ⟨h1, h2, h3⟩

/-! ## Packet information: neither IPv4 nor IPv6 (C9) -/

/-- C9. For every packet whose version nibble is neither 4 nor 6 (a packet
too short for the 12-byte read included), `hbm_get_pkt_info` is defined and
produces exactly `is_ip = false`, `is_tcp = false`, `ecn = 0`, `cwnd = 0`,
`rtt = 0`; the test guarding the call of `get_tcp_info` is false, and the
result is the same whatever socket `skb->sk` is. -/
theorem hbm_get_pkt_info_other (skb : sk_buff)
    (h4 : pkt_byte skb 0 / 16 ≠ 4) (h6 : pkt_byte skb 0 / 16 ≠ 6) :
    hbm_get_pkt_info skb =
      { cwnd := 0, rtt := 0, is_ip := false, is_tcp := false, ecn := 0 } ∧
    (hbm_get_pkt_info_hdr skb).is_tcp = false ∧
    hbm_get_pkt_info skb = hbm_get_pkt_info_hdr skb ∧
    ∀ sk1 : Option bpf_sock, hbm_get_pkt_info { skb with sk := sk1 } =
      { cwnd := 0, rtt := 0, is_ip := false, is_tcp := false, ecn := 0 } := by
  have h := hbm_get_pkt_info_hdr_other skb h4 h6
  refine ⟨?_, by rw [h], ?_, ?_⟩
  · simp [hbm_get_pkt_info, h]
  · simp [hbm_get_pkt_info, h]
  · intro sk1
    simp [hbm_get_pkt_info, hbm_get_pkt_info_hdr_sk, h]

/-- C9, at a concrete input: an ARP-like packet whose first byte is `0x00`,
owned by a readable TCP socket, which is not consulted. -/
theorem hbm_get_pkt_info_other_witness :
    hbm_get_pkt_info ⟨[0x00, 0x01, 8, 0, 6, 4, 6, 1, 0, 6, 0, 0],
        some ⟨some ⟨6, some ⟨10, 800⟩⟩⟩⟩ =
      { cwnd := 0, rtt := 0, is_ip := false, is_tcp := false, ecn := 0 } :=
  (hbm_get_pkt_info_other ⟨[0x00, 0x01, 8, 0, 6, 4, 6, 1, 0, 6, 0, 0],
    some ⟨some ⟨6, some ⟨10, 800⟩⟩⟩⟩ (by decide) (by decide)).1

/-! ## Packet information: the best-effort read of the TCP socket (C10) -/

theorem get_tcp_info_unreadable (skb : sk_buff) (pkti : hbm_pkt_info)
    (h : flow_unreadable skb) : get_tcp_info skb pkti = (1, pkti) := by
  unfold get_tcp_info
  rcases h with h | ⟨sk, h1, h2⟩ | ⟨sk, fs, h1, h2, h3⟩ | ⟨sk, fs, h1, h2, h3⟩
  · simp [h]
  · simp [h1, h2]
  · simp [h1, h2, h3]
  · simp [h1, h2, h3]

theorem get_tcp_info_readable (skb : sk_buff) (pkti : hbm_pkt_info) (tp : bpf_tcp_sock)
    (h : flow_readable skb tp) :
    get_tcp_info skb pkti =
      (0, { pkti with cwnd := toS32 tp.snd_cwnd, rtt := toS32 (tp.srtt_us >>> 3) }) := by
  obtain ⟨sk, fs, h1, h2, h3, h4⟩ := h
  simp [get_tcp_info, h1, h2, h3, h4]

theorem flow_unreadable_or_readable (skb : sk_buff) :
    flow_unreadable skb ∨ ∃ tp, flow_readable skb tp := by
  unfold flow_unreadable flow_readable
  cases h1 : skb.sk with
  | none => exact Or.inl (Or.inl rfl)
  | some sk =>
    cases h2 : bpf_sk_fullsock sk with
    | none => exact Or.inl (Or.inr (Or.inl ⟨sk, rfl, h2⟩))
    | some fs =>
      by_cases h3 : fs.protocol = IPPROTO_TCP
      · cases h4 : bpf_tcp_sock_of fs with
        | none => exact Or.inl (Or.inr (Or.inr (Or.inr ⟨sk, fs, rfl, h2, h4⟩)))
        | some tp => exact Or.inr ⟨tp, sk, fs, rfl, h2, h3, h4⟩
      · exact Or.inl (Or.inr (Or.inr (Or.inl ⟨sk, fs, rfl, h2, h3⟩)))

theorem toS32_of_range (x : Int) (h0 : 0 ≤ x) (h1 : x < 2 ^ 31) : toS32 x = x := by
  unfold toS32 toU32
  split_ifs <;> omega

/-- C10. The read of `cwnd` and `rtt` is best-effort. When the flow object is
not readable (`skb->sk` absent, not a full socket, protocol of the socket not
TCP, or no `tcp_sock`), `get_tcp_info` returns 1 and leaves `*pkti` as it
was, so for a TCP packet `hbm_get_pkt_info` yields `cwnd = 0` and `rtt = 0`;
`is_ip`, `is_tcp` and `ecn` do not depend on the socket at all. It returns 0
exactly when every step succeeds, and then `*pkti` differs only in
`cwnd = (int) snd_cwnd` (equal to `snd_cwnd` as a 32-bit value, and as an
integer when `snd_cwnd <= INT_MAX`) and `rtt = srtt_us >> 3`. -/
theorem get_tcp_info_best_effort (skb : sk_buff) (pkti : hbm_pkt_info) :
    (flow_unreadable skb → get_tcp_info skb pkti = (1, pkti)) ∧
    (flow_unreadable skb → (hbm_get_pkt_info_hdr skb).is_tcp = true →
      (hbm_get_pkt_info skb).cwnd = 0 ∧ (hbm_get_pkt_info skb).rtt = 0) ∧
    (∀ sk1 : Option bpf_sock,
      (hbm_get_pkt_info { skb with sk := sk1 }).is_ip = (hbm_get_pkt_info skb).is_ip ∧
      (hbm_get_pkt_info { skb with sk := sk1 }).is_tcp = (hbm_get_pkt_info skb).is_tcp ∧
      (hbm_get_pkt_info { skb with sk := sk1 }).ecn = (hbm_get_pkt_info skb).ecn) ∧
    ((get_tcp_info skb pkti).1 = 0 ↔ ∃ tp, flow_readable skb tp) ∧
    ((get_tcp_info skb pkti).1 = 1 ↔ flow_unreadable skb) ∧
    (∀ tp, flow_readable skb tp →
      get_tcp_info skb pkti =
        (0, { pkti with cwnd := toS32 tp.snd_cwnd, rtt := toS32 (tp.srtt_us >>> 3) }) ∧
      toU32 (get_tcp_info skb pkti).2.cwnd = toU32 tp.snd_cwnd ∧
      (tp.snd_cwnd < 2 ^ 31 → (get_tcp_info skb pkti).2.cwnd = (tp.snd_cwnd : Int)) ∧
      (tp.srtt_us < 2 ^ 32 →
        (get_tcp_info skb pkti).2.rtt = ((tp.srtt_us >>> 3 : Nat) : Int)) ∧
      ((hbm_get_pkt_info_hdr skb).is_tcp = true →
        hbm_get_pkt_info skb = (get_tcp_info skb (hbm_get_pkt_info_hdr skb)).2)) := by
  have hrd : ∀ tp, flow_readable skb tp → (get_tcp_info skb pkti).1 = 0 := by
    intro tp h
    rw [get_tcp_info_readable skb pkti tp h]
  have hun : flow_unreadable skb → (get_tcp_info skb pkti).1 = 1 := by
    intro h
    rw [get_tcp_info_unreadable skb pkti h]
  refine ⟨get_tcp_info_unreadable skb pkti, ?_, ?_, ?_, ?_, ?_⟩
  · intro h ht
    have h2 : hbm_get_pkt_info skb = hbm_get_pkt_info_hdr skb := by
      unfold hbm_get_pkt_info
      simp only [ht, if_true]
      rw [get_tcp_info_unreadable skb _ h]
    rw [h2]
    unfold hbm_get_pkt_info_hdr
    simp only
    split_ifs <;> exact ⟨rfl, rfl⟩
  · intro sk1
    obtain ⟨a1, a2, a3⟩ := hbm_get_pkt_info_frame { skb with sk := sk1 }
    obtain ⟨b1, b2, b3⟩ := hbm_get_pkt_info_frame skb
    rw [a1, a2, a3, b1, b2, b3, hbm_get_pkt_info_hdr_sk]
    exact ⟨rfl, rfl, rfl⟩
  · constructor
    · intro h0
      rcases flow_unreadable_or_readable skb with h | h
      · rw [hun h] at h0
        exact absurd h0 (by decide)
      · exact h
    · rintro ⟨tp, h⟩
      exact hrd tp h
  · constructor
    · intro h1
      rcases flow_unreadable_or_readable skb with h | ⟨tp, h⟩
      · exact h
      · rw [hrd tp h] at h1
        exact absurd h1 (by decide)
    · exact hun
  · intro tp h
    have he := get_tcp_info_readable skb pkti tp h
    refine ⟨he, ?_, ?_, ?_, ?_⟩
    · rw [he]
      exact toU32_toS32 _
    · intro hc
      rw [he]
      exact toS32_of_range _ (by omega) (by omega)
    · intro hr
      rw [he]
      have h8 : tp.srtt_us >>> 3 = tp.srtt_us / 8 := Nat.shiftRight_eq_div_pow _ 3
      exact toS32_of_range _ (by omega) (by rw [h8]; omega)
    · intro ht
      unfold hbm_get_pkt_info
      simp only [ht, if_true]

/-- C10, at a concrete input: for an IPv4 TCP packet without a socket the
read returns 1 and leaves the record as it was; for the same packet owned by
a readable TCP socket with `snd_cwnd = 10` and `srtt_us = 800` it returns 0
with `cwnd = 10` and `rtt = 100`. -/
theorem get_tcp_info_best_effort_witness :
    get_tcp_info ⟨[0x45, 0xb9, 0, 40, 0, 0, 0, 0, 64, 6, 0, 0], none⟩
        ⟨0, 0, true, true, 1⟩ = (1, ⟨0, 0, true, true, 1⟩) ∧
    get_tcp_info ⟨[0x45, 0xb9, 0, 40, 0, 0, 0, 0, 64, 6, 0, 0],
        some ⟨some ⟨6, some ⟨10, 800⟩⟩⟩⟩ ⟨0, 0, true, true, 1⟩ =
      (0, ⟨10, 100, true, true, 1⟩) :=
  ⟨(get_tcp_info_best_effort ⟨[0x45, 0xb9, 0, 40, 0, 0, 0, 0, 64, 6, 0, 0], none⟩
      ⟨0, 0, true, true, 1⟩).1 (Or.inl rfl),
   ((get_tcp_info_best_effort ⟨[0x45, 0xb9, 0, 40, 0, 0, 0, 0, 64, 6, 0, 0],
      some ⟨some ⟨6, some ⟨10, 800⟩⟩⟩⟩ ⟨0, 0, true, true, 1⟩).2.2.2.2.2 ⟨10, 800⟩
      ⟨⟨some ⟨6, some ⟨10, 800⟩⟩⟩, ⟨6, some ⟨10, 800⟩⟩, rfl, rfl, rfl, rfl⟩).1⟩

end HBM
